import Mathlib

/-!
Shallow embedding of `src/server.go` (bineetNaidu/golang-todos-api): a Fiber
HTTP server exposing CRUD over a MongoDB `todos` collection. Pure parts
(ObjectID hex parsing, JSON body decoding, handler control flow) are modelled
as Lean functions; the MongoDB collection is modelled as an explicit state
(list of documents plus the driver's ObjectID generator), and environmental
driver failures (connection loss etc.) are injected through explicit `Option
String` parameters.
-/

set_option maxHeartbeats 1000000
set_option maxRecDepth 4096

namespace TodosApi

/-! ## ObjectID hex strings

Go's `primitive.ObjectIDFromHex` accepts exactly the 24-character strings of
hexadecimal digits (either case) and parses them into a 12-byte ObjectID,
modelled here as its numeric value. `ObjectID.Hex` (and the default registry's
string codec, which decodes an ObjectID `_id` into a Go `string` field as its
hex form) renders lower-case. -/

/-- The hexadecimal digit characters with their values, as accepted by
`hex.DecodeString` inside `primitive.ObjectIDFromHex`. -/
def hexTable : List (Char × Nat) :=
  [('0', 0), ('1', 1), ('2', 2), ('3', 3), ('4', 4), ('5', 5), ('6', 6), ('7', 7),
   ('8', 8), ('9', 9),
   ('a', 10), ('b', 11), ('c', 12), ('d', 13), ('e', 14), ('f', 15),
   ('A', 10), ('B', 11), ('C', 12), ('D', 13), ('E', 14), ('F', 15)]

/-- Value of a hexadecimal digit character, if it is one. -/
def hexLookup (c : Char) : Option Nat :=
  (hexTable.find? (fun p => p.1 == c)).map (fun p => p.2)

/-- Whether a character is a hexadecimal digit. -/
def isHexDigit (c : Char) : Bool :=
  (hexLookup c).isSome

/-- Numeric value of a hexadecimal digit character (junk value 0 on other
characters; only used under an `isHexDigit` guard). -/
def hexValD (c : Char) : Nat :=
  (hexLookup c).getD 0

/-- Lower-case hexadecimal digit character for a value below 16. -/
def hexChar : Nat → Char
  | 0 => '0'
  | 1 => '1'
  | 2 => '2'
  | 3 => '3'
  | 4 => '4'
  | 5 => '5'
  | 6 => '6'
  | 7 => '7'
  | 8 => '8'
  | 9 => '9'
  | 10 => 'a'
  | 11 => 'b'
  | 12 => 'c'
  | 13 => 'd'
  | 14 => 'e'
  | _ => 'f'

/-- Little-endian base-16 digits of `n`, exactly `k` of them (fixed width). -/
def hexDigitsLE : Nat → Nat → List Nat
  | 0, _ => []
  | k + 1, n => n % 16 :: hexDigitsLE k (n / 16)

/-- Value of a little-endian base-16 digit list. -/
def valOfLE : List Nat → Nat
  | [] => 0
  | d :: ds => d + 16 * valOfLE ds

/-- The 24-character lower-case hex rendering of an ObjectID value, as
`ObjectID.Hex` produces it. -/
def oidToHex (n : Nat) : String :=
  String.mk (((hexDigitsLE 24 n).map hexChar).reverse)

/-- Go: `primitive.ObjectIDFromHex` — parses a 24-character hexadecimal string
into an ObjectID (modelled as its numeric value), failing on any other
string. -/
def ObjectIDFromHex (s : String) : Option Nat :=
  if s.length == 24 && s.data.all isHexDigit then
    some (valOfLE (s.data.reverse.map hexValD))
  else none

theorem hexTable_snd_lt : ∀ p ∈ hexTable, p.2 < 16 := by
  decide

theorem map_self_of {α : Type} (f : α → α) (l : List α) (h : ∀ a ∈ l, f a = a) :
    l.map f = l := by
  induction l with
  | nil => rfl
  | cons x xs ih =>
    simp only [List.map_cons]
    rw [h x (by simp), ih (fun a ha => h a (by simp [ha]))]

theorem hexDigitsLE_length (k n : Nat) : (hexDigitsLE k n).length = k := by
  induction k generalizing n with
  | zero => rfl
  | succ k ih => simp [hexDigitsLE, ih]

theorem hexDigitsLE_lt (k n : Nat) : ∀ d ∈ hexDigitsLE k n, d < 16 := by
  induction k generalizing n with
  | zero => intro d hd; simp [hexDigitsLE] at hd
  | succ k ih =>
    intro d hd
    simp only [hexDigitsLE, List.mem_cons] at hd
    rcases hd with h | h
    · subst h; exact Nat.mod_lt _ (by omega)
    · exact ih _ d h

theorem valOfLE_hexDigitsLE (k n : Nat) : valOfLE (hexDigitsLE k n) = n % 16 ^ k := by
  induction k generalizing n with
  | zero => simp [hexDigitsLE, valOfLE, Nat.mod_one]
  | succ k ih =>
    have h16 : 16 ^ (k + 1) = 16 * 16 ^ k := by
      rw [pow_succ]; ring
    rw [hexDigitsLE, valOfLE, ih, h16, Nat.mod_mul]

theorem valOfLE_lt (l : List Nat) (h : ∀ d ∈ l, d < 16) :
    valOfLE l < 16 ^ l.length := by
  induction l with
  | nil => simp [valOfLE]
  | cons d ds ih =>
    have hd : d < 16 := h d (by simp)
    have hds : valOfLE ds < 16 ^ ds.length := ih (fun x hx => h x (by simp [hx]))
    simp only [valOfLE, List.length_cons, pow_succ]
    have : 16 ^ ds.length * 16 = 16 * 16 ^ ds.length := by ring
    rw [this]
    omega

theorem hexChar_spec_fin :
    ∀ d : Fin 16, isHexDigit (hexChar d.val) = true ∧ hexValD (hexChar d.val) = d.val := by
  decide

theorem hexChar_spec (d : Nat) (h : d < 16) :
    isHexDigit (hexChar d) = true ∧ hexValD (hexChar d) = d :=
  hexChar_spec_fin ⟨d, h⟩

theorem oidToHex_length (n : Nat) : (oidToHex n).length = 24 := by
  show (((hexDigitsLE 24 n).map hexChar).reverse).length = 24
  simp [hexDigitsLE_length]

theorem oidToHex_ne_empty (n : Nat) : oidToHex n ≠ "" := by
  intro h
  have := congrArg String.length h
  rw [oidToHex_length] at this
  simp [String.length] at this

theorem ObjectIDFromHex_oidToHex (n : Nat) (h : n < 16 ^ 24) :
    ObjectIDFromHex (oidToHex n) = some n := by
  have hlen : (oidToHex n).length = 24 := oidToHex_length n
  have hdata : (oidToHex n).data = ((hexDigitsLE 24 n).map hexChar).reverse := rfl
  have hall : (oidToHex n).data.all isHexDigit = true := by
    rw [hdata]
    rw [List.all_eq_true]
    intro c hc
    rw [List.mem_reverse, List.mem_map] at hc
    obtain ⟨d, hd, hcd⟩ := hc
    subst hcd
    exact (hexChar_spec d (hexDigitsLE_lt 24 n d hd)).1
  rw [ObjectIDFromHex]
  rw [hdata] at hall ⊢
  have hlen' : ((((hexDigitsLE 24 n).map hexChar).reverse).length == 24) = true := by
    simp [hexDigitsLE_length]
  have hcond : ((oidToHex n).length == 24 && (((hexDigitsLE 24 n).map hexChar).reverse).all isHexDigit) = true := by
    rw [hall, hlen]
    rfl
  rw [hlen] at hcond ⊢
  simp only [hcond, if_pos, List.reverse_reverse, List.map_map]
  have hmap : (hexDigitsLE 24 n).map (hexValD ∘ hexChar) = hexDigitsLE 24 n := by
    apply map_self_of
    intro d hd
    exact (hexChar_spec d (hexDigitsLE_lt 24 n d hd)).2
  rw [hmap, valOfLE_hexDigitsLE, Nat.mod_eq_of_lt h]

theorem oidToHex_inj (a b : Nat) (ha : a < 16 ^ 24) (hb : b < 16 ^ 24)
    (h : oidToHex a = oidToHex b) : a = b := by
  have h1 := ObjectIDFromHex_oidToHex a ha
  have h2 := ObjectIDFromHex_oidToHex b hb
  rw [h, h2] at h1
  exact (Option.some_injective _ h1).symm

theorem ObjectIDFromHex_lt (s : String) (oid : Nat)
    (h : ObjectIDFromHex s = some oid) : oid < 16 ^ 24 := by
  rw [ObjectIDFromHex] at h
  by_cases hc : (s.length == 24 && s.data.all isHexDigit) = true
  · rw [if_pos hc] at h
    have hoid : oid = valOfLE (s.data.reverse.map hexValD) := by
      exact (Option.some_injective _ h).symm
    have hlen : s.data.length = 24 := by
      have hb := ((Bool.and_eq_true _ _).mp hc).1
      rw [beq_iff_eq] at hb
      exact hb
    have hall : ∀ c ∈ s.data, isHexDigit c = true := by
      have := (Bool.and_eq_true _ _).mp hc
      exact List.all_eq_true.mp this.2
    have hdig : ∀ d ∈ s.data.reverse.map hexValD, d < 16 := by
      intro d hd
      rw [List.mem_map] at hd
      obtain ⟨c, hc1, hc2⟩ := hd
      rw [List.mem_reverse] at hc1
      have hhex := hall c hc1
      subst hc2
      rw [hexValD]
      rw [isHexDigit, Option.isSome_iff_exists] at hhex
      obtain ⟨v, hv⟩ := hhex
      rw [hv]
      simp only [Option.getD_some]
      rw [hexLookup] at hv
      rw [Option.map_eq_some'] at hv
      obtain ⟨p, hp1, hp2⟩ := hv
      have hmem := List.mem_of_find?_eq_some hp1
      subst hp2
      exact hexTable_snd_lt p hmem
    have hlt := valOfLE_lt _ hdig
    rw [List.length_map, List.length_reverse, hlen] at hlt
    rw [hoid]
    exact hlt
  · rw [if_neg hc] at h
    exact absurd h (by simp)

/-! ## Data model -/

/-- Go struct `Todo` (src/server.go lines 29-33): JSON fields `id` (omitempty),
`text`, `completed`; bson field `_id` (omitempty). -/
structure Todo where
  ID : String
  Text : String
  Completed : Bool
  deriving Repr, DecidableEq

/-- A Mongo `_id` value: either a driver-generated ObjectID or the string
primary key that inserting a struct with a non-empty string `ID` field would
store. -/
inductive BsonId where
  | oid (n : Nat)
  | str (s : String)
  deriving Repr, DecidableEq

/-- One document of the `todos` collection. -/
structure StoreRecord where
  id : BsonId
  text : String
  completed : Bool
  deriving Repr, DecidableEq

/-- The state of the `todos` collection together with the driver's ObjectID
generator, abstracted as a counter: each generated `_id` is the current counter
value, a value the generator has never produced before. -/
structure Store where
  records : List StoreRecord
  counter : Nat
  deriving Repr, DecidableEq

/-- Whether a `_id` is a generated ObjectID below the generator counter. -/
def BsonId.isGenBelow : BsonId → Nat → Bool
  | BsonId.oid n, c => n < c
  | BsonId.str _, _ => false

/-- Store states reachable through this API: every document's `_id` is a
generated ObjectID below the generator counter, `_id`s are pairwise distinct,
and the generator has not exhausted the 12-byte ObjectID space. -/
def Store.wf (s : Store) : Prop :=
  (∀ r ∈ s.records, r.id.isGenBelow s.counter = true) ∧
  (s.records.map (fun r => r.id)).Nodup ∧
  s.counter < 16 ^ 24

/-- Decoding a stored document into the Go `Todo` struct: the default
registry's string codec renders an ObjectID `_id` into the string `ID` field as
its 24-character hex form. -/
def todoOfRecord (r : StoreRecord) : Todo :=
  ⟨match r.id with
    | BsonId.oid n => oidToHex n
    | BsonId.str s => s,
   r.text, r.completed⟩

/-! ## JSON request bodies

`fiber.Ctx.BodyParser` on a JSON request delegates to `encoding/json`
unmarshalling into a zero `Todo`. The body is modelled after syntactic JSON
parsing as a `Json` value. -/

/-- A parsed JSON value. -/
inductive Json where
  | null
  | bool (b : Bool)
  | num (x : Int)
  | str (s : String)
  | arr (xs : List Json)
  | obj (fields : List (String × Json))

/-- ASCII lower-casing, as Go applies when matching JSON keys to struct field
tags case-insensitively. -/
def lowerChar (c : Char) : Char :=
  if 'A' ≤ c && c ≤ 'Z' then Char.ofNat (c.toNat + 32) else c

/-- Go `encoding/json` field matching: the JSON key is matched against the
struct tag up to case. -/
def keyIs (k tag : String) : Bool :=
  k.data.map lowerChar == tag.data

/-- Unmarshalling one JSON object entry into the `Todo` struct: a known key
must carry a value of its field's type (JSON `null` leaves the field
untouched); unknown keys are ignored. -/
def setField (t : Todo) (k : String) (v : Json) : Except String Todo :=
  if keyIs k "id" then
    match v with
    | Json.str s => Except.ok { t with ID := s }
    | Json.null => Except.ok t
    | _ => Except.error "json: cannot unmarshal value into Go struct field Todo.id of type string"
  else if keyIs k "text" then
    match v with
    | Json.str s => Except.ok { t with Text := s }
    | Json.null => Except.ok t
    | _ => Except.error "json: cannot unmarshal value into Go struct field Todo.text of type string"
  else if keyIs k "completed" then
    match v with
    | Json.bool b => Except.ok { t with Completed := b }
    | Json.null => Except.ok t
    | _ => Except.error "json: cannot unmarshal value into Go struct field Todo.completed of type bool"
  else Except.ok t

/-- Unmarshalling the entries of a JSON object in order (a later duplicate key
overwrites an earlier one, as in Go). -/
def setFields (t : Todo) : List (String × Json) → Except String Todo
  | [] => Except.ok t
  | (k, v) :: rest =>
    match setField t k v with
    | Except.ok t1 => setFields t1 rest
    | Except.error e => Except.error e

/-- `c.BodyParser(todo)` on a JSON body: `encoding/json` unmarshalling into a
zero `Todo` (JSON `null` is a successful no-op; any non-object is a type
error). -/
def decodeTodo : Json → Except String Todo
  | Json.null => Except.ok ⟨"", "", false⟩
  | Json.obj fields => setFields ⟨"", "", false⟩ fields
  | _ => Except.error "json: cannot unmarshal value into Go value of type main.Todo"

/-! ## The driver operations

Each operation takes an `Option String` environment parameter injecting an
environmental driver failure (connection loss, timeout, ...) with its message;
`none` means the environment does not fail the call. -/

/-- Driver-level errors: `mongo.ErrNoDocuments` or an environmental failure. -/
inductive DriverError where
  | noDocuments
  | other (msg : String)
  deriving Repr, DecidableEq

/-- `mongo.SingleResult`: holds either the matched document or an error. -/
abbrev SingleResult := Except DriverError StoreRecord

/-- The first document (in store order) whose `_id` matches. -/
def firstMatch (v : BsonId) : List StoreRecord → Option StoreRecord
  | [] => none
  | r :: rs => if r.id == v then some r else firstMatch v rs

/-- `Collection.Find` with the empty filter: every document, in store order. -/
def collFind (env : Option String) (s : Store) : Except String (List StoreRecord) :=
  match env with
  | some msg => Except.error msg
  | none => Except.ok s.records

/-- `Cursor.All`: decodes every document into the passed slice (a `none` slice
is Go `nil`, which JSON-encodes as `null`). With no documents the initial
slice is kept; otherwise it is replaced by the decoded documents. -/
def cursorAll (env : Option String) (docs : List StoreRecord)
    (init : Option (List Todo)) : Except String (Option (List Todo)) :=
  match env with
  | some msg => Except.error msg
  | none =>
    match docs with
    | [] => Except.ok init
    | _ => Except.ok (some (docs.map todoOfRecord))

/-- `Collection.InsertOne`: marshalling the struct omits `_id` when the `ID`
field is empty (bson tag `omitempty`), in which case the driver generates a
fresh ObjectID — the counter value; a non-empty `ID` would be stored as a
string `_id`. A duplicate `_id` is rejected. Returns the new store and the
inserted `_id`. -/
def collInsertOne (env : Option String) (s : Store) (t : Todo) :
    Except String (Store × BsonId) :=
  match env with
  | some msg => Except.error msg
  | none =>
    let newId := if t.ID == "" then BsonId.oid s.counter else BsonId.str t.ID
    if s.records.any (fun r => r.id == newId) then
      Except.error "E11000 duplicate key error"
    else
      Except.ok (⟨s.records ++ [⟨newId, t.Text, t.Completed⟩],
                  if t.ID == "" then s.counter + 1 else s.counter⟩, newId)

/-- `Collection.FindOne`: the driver always returns a non-nil `*SingleResult`;
a zero-match query surfaces as `ErrNoDocuments` inside it. The `Option`
wrapper models the Go pointer and is always `some`. -/
def collFindOnePtr (env : Option String) (s : Store) (v : BsonId) :
    Option SingleResult :=
  some (match env with
        | some msg => Except.error (DriverError.other msg)
        | none =>
          match firstMatch v s.records with
          | some r => Except.ok r
          | none => Except.error DriverError.noDocuments)

/-- `SingleResult.Decode` with its returned error ignored, as the source does:
on success the target struct is overwritten with the decoded document, on any
error it is left unchanged (`ErrNoDocuments` does not touch the target).
`none` is a nil pointer, never produced by the driver. -/
def ptrDecodeIgnoringErr (p : Option SingleResult) (t : Todo) : Todo :=
  match p with
  | some (Except.ok r) => todoOfRecord r
  | some (Except.error _) => t
  | none => t

/-- Overwrite the `text` and `completed` fields of the first document whose
`_id` matches; `none` when no document matches (`findAndModify` semantics). -/
def updateFirst (v : BsonId) (text : String) (completed : Bool) :
    List StoreRecord → Option (List StoreRecord)
  | [] => none
  | r :: rs =>
    if r.id == v then some (⟨r.id, text, completed⟩ :: rs)
    else
      match updateFirst v text completed rs with
      | some rs1 => some (r :: rs1)
      | none => none

/-- `Collection.FindOneAndUpdate` with `$set` on `text` and `completed`:
`ErrNoDocuments` when the filter matches nothing. -/
def collFindOneAndUpdate (env : Option String) (s : Store) (oid : Nat)
    (text : String) (completed : Bool) : Except DriverError Store :=
  match env with
  | some msg => Except.error (DriverError.other msg)
  | none =>
    match updateFirst (BsonId.oid oid) text completed s.records with
    | some rs => Except.ok ⟨rs, s.counter⟩
    | none => Except.error DriverError.noDocuments

/-- Remove the first document whose `_id` matches, reporting how many were
removed (`DeletedCount`). -/
def deleteFirst (v : BsonId) : List StoreRecord → List StoreRecord × Nat
  | [] => ([], 0)
  | r :: rs =>
    if r.id == v then (rs, 1)
    else
      let p := deleteFirst v rs
      (r :: p.1, p.2)

/-- `Collection.DeleteOne`. -/
def collDeleteOne (env : Option String) (s : Store) (oid : Nat) :
    Except String (Store × Nat) :=
  match env with
  | some msg => Except.error msg
  | none =>
    let p := deleteFirst (BsonId.oid oid) s.records
    Except.ok (⟨p.1, s.counter⟩, p.2)

/-! ## The HTTP layer -/

/-- An HTTP response body at the wire level. -/
inductive Body where
  | empty
  | text (s : String)
  | jsonTodo (t : Todo)
  | jsonTodos (l : Option (List Todo))
  deriving Repr, DecidableEq

/-- An HTTP response. -/
structure Response where
  status : Nat
  body : Body
  deriving Repr, DecidableEq

/-- Fiber default status texts for the codes this server uses. -/
def statusMessage (code : Nat) : String :=
  if code == 400 then "Bad Request"
  else if code == 404 then "Not Found"
  else if code == 500 then "Internal Server Error"
  else ""

/-- Fiber `c.SendStatus`: sets the code and its default status text as body;
a 204 carries no body on the wire. -/
def sendStatus (code : Nat) : Response :=
  ⟨code, if code == 204 then Body.empty else Body.text (statusMessage code)⟩

/-- The store operations a handler issued, in order. -/
inductive StoreOp where
  | findAll
  | insertOne (t : Todo)
  | findOne (v : BsonId)
  | findOneAndUpdate (oid : Nat)
  | deleteOne (oid : Nat)
  deriving Repr, DecidableEq

/-- A handler run: the response, the resulting store, and the store operations
issued. -/
abbrev HandlerOut := Response × Store × List StoreOp

/-- src/server.go lines 69-86: the `app.Get("/")` handler. -/
def getAllHandler (envFind envAll : Option String) (s : Store) : HandlerOut :=
  match collFind envFind s with
  | Except.error msg => (⟨500, Body.text msg⟩, s, [StoreOp.findAll])
  | Except.ok docs =>
    let todos : Option (List Todo) := some []
    match cursorAll envAll docs todos with
    | Except.error msg => (⟨500, Body.text msg⟩, s, [StoreOp.findAll])
    | Except.ok todos1 => (⟨200, Body.jsonTodos todos1⟩, s, [StoreOp.findAll])

/-- src/server.go lines 90-119: the `app.Post("/")` handler. The parsed body's
`ID` is overwritten with `""` before insertion; the decode error of the
re-fetched record is ignored. -/
def postHandler (body : Json) (envInsert envFind : Option String) (s : Store) :
    HandlerOut :=
  match decodeTodo body with
  | Except.error msg => (⟨400, Body.text msg⟩, s, [])
  | Except.ok parsed =>
    let todo := { parsed with ID := "" }
    match collInsertOne envInsert s todo with
    | Except.error msg => (⟨500, Body.text msg⟩, s, [StoreOp.insertOne todo])
    | Except.ok (s1, insertedId) =>
      let record := collFindOnePtr envFind s1 insertedId
      let createdTodo := ptrDecodeIgnoringErr record ⟨"", "", false⟩
      (⟨201, Body.jsonTodo createdTodo⟩, s1,
        [StoreOp.insertOne todo, StoreOp.findOne insertedId])

/-- src/server.go lines 123-140: the `app.Get("/:id")` handler. The
`record == nil` test compares the driver's pointer to nil; `record.Decode`'s
error is ignored and `c.JSON` leaves the default status 200. -/
def getByIdHandler (idParam : String) (env : Option String) (s : Store) :
    HandlerOut :=
  match ObjectIDFromHex idParam with
  | none => (sendStatus 400, s, [])
  | some oid =>
    let record := collFindOnePtr env s (BsonId.oid oid)
    match record with
    | none => (⟨404, Body.text "Not found"⟩, s, [StoreOp.findOne (BsonId.oid oid)])
    | some sr =>
      let todo := ptrDecodeIgnoringErr (some sr) ⟨"", "", false⟩
      (⟨200, Body.jsonTodo todo⟩, s, [StoreOp.findOne (BsonId.oid oid)])

/-- src/server.go lines 144-182: the `app.Put("/:id")` handler. On success the
response body is the parsed request body with its `ID` field set to the raw
path parameter. -/
def putHandler (idParam : String) (body : Json) (env : Option String)
    (s : Store) : HandlerOut :=
  match ObjectIDFromHex idParam with
  | none => (sendStatus 400, s, [])
  | some oid =>
    match decodeTodo body with
    | Except.error msg => (⟨400, Body.text msg⟩, s, [])
    | Except.ok todo =>
      match collFindOneAndUpdate env s oid todo.Text todo.Completed with
      | Except.error DriverError.noDocuments =>
        (sendStatus 404, s, [StoreOp.findOneAndUpdate oid])
      | Except.error (DriverError.other _) =>
        (sendStatus 500, s, [StoreOp.findOneAndUpdate oid])
      | Except.ok s1 =>
        (⟨200, Body.jsonTodo { todo with ID := idParam }⟩, s1,
          [StoreOp.findOneAndUpdate oid])

/-- src/server.go lines 186-211: the `app.Delete("/:id")` handler. -/
def deleteHandler (idParam : String) (env : Option String) (s : Store) :
    HandlerOut :=
  match ObjectIDFromHex idParam with
  | none => (sendStatus 400, s, [])
  | some oid =>
    match collDeleteOne env s oid with
    | Except.error _ => (sendStatus 500, s, [StoreOp.deleteOne oid])
    | Except.ok (s1, count) =>
      if count < 1 then (sendStatus 404, s1, [StoreOp.deleteOne oid])
      else (sendStatus 204, s1, [StoreOp.deleteOne oid])

/-! ## JSON response rendering (for the body shape claims) -/

/-- Go `encoding/json` string escaping, restricted to the characters needing
it here. -/
def escapeJsonChar (c : Char) : String :=
  if c == '"' then "\\\"" else if c == '\\' then "\\\\" else String.singleton c

/-- Escape a string for embedding in JSON. -/
def escapeJson (s : String) : String :=
  String.join (s.data.map escapeJsonChar)

/-- JSON encoding of a `Todo`: the `id` key is omitted when empty. -/
def renderTodoJson (t : Todo) : String :=
  "\x7b" ++
    (if t.ID == "" then "" else "\"id\":\"" ++ escapeJson t.ID ++ "\",") ++
    "\"text\":\"" ++ escapeJson t.Text ++ "\",\"completed\":" ++
    (if t.Completed then "true" else "false") ++ "\x7d"

/-- JSON encoding of the list body: a Go nil slice encodes as `null`, an empty
slice as `[]`. -/
def renderTodosJson : Option (List Todo) → String
  | none => "null"
  | some l => "[" ++ String.intercalate "," (l.map renderTodoJson) ++ "]"

/-! ## Lemmas about the store operations -/

theorem firstMatch_of_not_mem (v : BsonId) (l : List StoreRecord)
    (h : ∀ r ∈ l, r.id ≠ v) : firstMatch v l = none := by
  induction l with
  | nil => rfl
  | cons r rs ih =>
    have hr : r.id ≠ v := h r (by simp)
    simp only [firstMatch]
    rw [if_neg (by simpa using hr)]
    exact ih (fun x hx => h x (by simp [hx]))

theorem firstMatch_append_fresh (v : BsonId) (l : List StoreRecord)
    (x : StoreRecord) (h : ∀ r ∈ l, r.id ≠ v) (hx : x.id = v) :
    firstMatch v (l ++ [x]) = some x := by
  induction l with
  | nil =>
    simp only [List.nil_append, firstMatch]
    rw [if_pos (by simpa using hx)]
  | cons r rs ih =>
    have hr : r.id ≠ v := h r (by simp)
    simp only [List.cons_append, firstMatch]
    rw [if_neg (by simpa using hr)]
    exact ih (fun y hy => h y (by simp [hy]))

theorem updateFirst_isSome_of_mem (v : BsonId) (text : String) (completed : Bool)
    (l : List StoreRecord) (h : v ∈ l.map (fun r => r.id)) :
    ∃ l1, updateFirst v text completed l = some l1 := by
  induction l with
  | nil => simp at h
  | cons r rs ih =>
    simp only [List.map_cons, List.mem_cons] at h
    by_cases hr : r.id = v
    · exact ⟨⟨r.id, text, completed⟩ :: rs, by
        simp only [updateFirst]; rw [if_pos (by simpa using hr)]⟩
    · have hv : v ∈ rs.map (fun r => r.id) := by
        rcases h with h | h
        · exact absurd h.symm hr
        · exact h
      obtain ⟨l1, hl1⟩ := ih hv
      exact ⟨r :: l1, by
        simp only [updateFirst]
        rw [if_neg (by simpa using hr), hl1]⟩

theorem updateFirst_none_of_not_mem (v : BsonId) (text : String)
    (completed : Bool) (l : List StoreRecord) (h : ∀ r ∈ l, r.id ≠ v) :
    updateFirst v text completed l = none := by
  induction l with
  | nil => rfl
  | cons r rs ih =>
    have hr : r.id ≠ v := h r (by simp)
    simp only [updateFirst]
    rw [if_neg (by simpa using hr), ih (fun x hx => h x (by simp [hx]))]

theorem updateFirst_map_id (v : BsonId) (text : String) (completed : Bool)
    (l l1 : List StoreRecord) (h : updateFirst v text completed l = some l1) :
    l1.map (fun r => r.id) = l.map (fun r => r.id) := by
  induction l generalizing l1 with
  | nil => simp [updateFirst] at h
  | cons r rs ih =>
    simp only [updateFirst] at h
    by_cases hr : (r.id == v) = true
    · rw [if_pos hr] at h
      obtain rfl := (Option.some_injective _ h).symm
      simp
    · rw [if_neg hr] at h
      cases hrec : updateFirst v text completed rs with
      | none => rw [hrec] at h; exact absurd h (by simp)
      | some rs1 =>
        rw [hrec] at h
        obtain rfl := (Option.some_injective _ h).symm
        simp only [List.map_cons]
        rw [ih rs1 hrec]

theorem updateFirst_frame (v : BsonId) (text : String) (completed : Bool)
    (l l1 : List StoreRecord) (h : updateFirst v text completed l = some l1) :
    ∀ r ∈ l, r.id ≠ v → r ∈ l1 := by
  induction l generalizing l1 with
  | nil => simp [updateFirst] at h
  | cons r rs ih =>
    simp only [updateFirst] at h
    by_cases hr : (r.id == v) = true
    · rw [if_pos hr] at h
      obtain rfl := (Option.some_injective _ h).symm
      intro x hx hxv
      rcases List.mem_cons.mp hx with rfl | hx
      · exact absurd (by simpa using hr) hxv
      · exact List.mem_cons_of_mem _ hx
    · rw [if_neg hr] at h
      cases hrec : updateFirst v text completed rs with
      | none => rw [hrec] at h; exact absurd h (by simp)
      | some rs1 =>
        rw [hrec] at h
        obtain rfl := (Option.some_injective _ h).symm
        intro x hx hxv
        rcases List.mem_cons.mp hx with rfl | hx
        · exact List.mem_cons_self _ _
        · exact List.mem_cons_of_mem _ (ih rs1 hrec x hx hxv)

theorem updateFirst_firstMatch (v : BsonId) (text : String) (completed : Bool)
    (l l1 : List StoreRecord) (h : updateFirst v text completed l = some l1) :
    firstMatch v l1 = some ⟨v, text, completed⟩ := by
  induction l generalizing l1 with
  | nil => simp [updateFirst] at h
  | cons r rs ih =>
    simp only [updateFirst] at h
    by_cases hr : (r.id == v) = true
    · rw [if_pos hr] at h
      obtain rfl := (Option.some_injective _ h).symm
      have hrv : r.id = v := by simpa using hr
      simp only [firstMatch]
      rw [if_pos (by simpa using hr)]
      rw [hrv]
    · rw [if_neg hr] at h
      cases hrec : updateFirst v text completed rs with
      | none => rw [hrec] at h; exact absurd h (by simp)
      | some rs1 =>
        rw [hrec] at h
        obtain rfl := (Option.some_injective _ h).symm
        simp only [firstMatch]
        rw [if_neg hr]
        exact ih rs1 hrec

theorem deleteFirst_of_not_mem (v : BsonId) (l : List StoreRecord)
    (h : ∀ r ∈ l, r.id ≠ v) : deleteFirst v l = (l, 0) := by
  induction l with
  | nil => rfl
  | cons r rs ih =>
    have hr : r.id ≠ v := h r (by simp)
    simp only [deleteFirst]
    rw [if_neg (by simpa using hr), ih (fun x hx => h x (by simp [hx]))]

theorem deleteFirst_of_mem (v : BsonId) (l : List StoreRecord)
    (h : v ∈ l.map (fun r => r.id)) :
    (deleteFirst v l).2 = 1 ∧ (deleteFirst v l).1.length + 1 = l.length := by
  induction l with
  | nil => simp at h
  | cons r rs ih =>
    by_cases hr : (r.id == v) = true
    · simp only [deleteFirst]
      rw [if_pos hr]
      simp
    · simp only [List.map_cons, List.mem_cons] at h
      have hv : v ∈ rs.map (fun r => r.id) := by
        rcases h with h | h
        · exact absurd (by simpa using hr : r.id ≠ v) (fun hne => hne h.symm)
        · exact h
      obtain ⟨h1, h2⟩ := ih hv
      simp only [deleteFirst]
      rw [if_neg hr]
      constructor
      · exact h1
      · simpa using h2

theorem wf_id_ne_counter (s : Store) (hwf : s.wf) :
    ∀ r ∈ s.records, r.id ≠ BsonId.oid s.counter := by
  intro r hr heq
  have := hwf.1 r hr
  rw [heq] at this
  simp only [BsonId.isGenBelow, decide_eq_true_eq] at this
  omega

/-- Insertion of a record with empty `ID` into a well-formed store succeeds
and assigns the fresh generated ObjectID. -/
theorem collInsertOne_fresh (s : Store) (hwf : s.wf) (t : Todo) (h : t.ID = "") :
    collInsertOne none s t = Except.ok
      (⟨s.records ++ [⟨BsonId.oid s.counter, t.Text, t.Completed⟩],
        s.counter + 1⟩, BsonId.oid s.counter) := by
  have hid : (t.ID == "") = true := by rw [h]; rfl
  have hany : (s.records.any (fun r => r.id == BsonId.oid s.counter)) = false := by
    rw [List.any_eq_false]
    intro r hr
    simpa using wf_id_ne_counter s hwf r hr
  simp only [collInsertOne, hid, if_true]
  rw [if_neg (by simp [hany])]

/-! ## Lemmas about body decoding -/

theorem setField_completed_of_not (t : Todo) (k : String) (v : Json)
    (hk : keyIs k "completed" = false) :
    ∀ t1, setField t k v = Except.ok t1 → t1.Completed = t.Completed := by
  intro t1 h
  rw [setField.eq_def] at h
  by_cases h1 : keyIs k "id" = true
  · rw [if_pos h1] at h
    cases v <;> simp_all <;> (subst h; rfl)
  · rw [if_neg h1] at h
    by_cases h2 : keyIs k "text" = true
    · rw [if_pos h2] at h
      cases v <;> simp_all <;> (subst h; rfl)
    · rw [if_neg h2, hk] at h
      simp only [Bool.false_eq_true, if_false] at h
      exact (congrArg Todo.Completed (by simpa using h)).symm ▸ rfl

theorem setField_text_of_not (t : Todo) (k : String) (v : Json)
    (hk : keyIs k "text" = false) :
    ∀ t1, setField t k v = Except.ok t1 → t1.Text = t.Text := by
  intro t1 h
  rw [setField.eq_def] at h
  by_cases h1 : keyIs k "id" = true
  · rw [if_pos h1] at h
    cases v <;> simp_all <;> (subst h; rfl)
  · rw [if_neg h1, hk] at h
    simp only [Bool.false_eq_true, if_false] at h
    by_cases h3 : keyIs k "completed" = true
    · rw [if_pos h3] at h
      cases v <;> simp_all <;> (subst h; rfl)
    · rw [if_neg h3] at h
      exact (congrArg Todo.Text (by simpa using h)).symm ▸ rfl

theorem setFields_completed (fields : List (String × Json)) (t0 : Todo)
    (hk : ∀ kv ∈ fields, keyIs kv.1 "completed" = false) :
    ∀ t, setFields t0 fields = Except.ok t → t.Completed = t0.Completed := by
  induction fields generalizing t0 with
  | nil => intro t h; simp only [setFields] at h; simp_all
  | cons kv rest ih =>
    intro t h
    obtain ⟨k, v⟩ := kv
    simp only [setFields] at h
    cases hsf : setField t0 k v with
    | error e => rw [hsf] at h; exact absurd h (by simp)
    | ok t1 =>
      rw [hsf] at h
      have h1 := ih t1 (fun kv hkv => hk kv (by simp [hkv])) t h
      have h2 := setField_completed_of_not t0 k v (hk (k, v) (by simp)) t1 hsf
      rw [h1, h2]

theorem setFields_text (fields : List (String × Json)) (t0 : Todo)
    (hk : ∀ kv ∈ fields, keyIs kv.1 "text" = false) :
    ∀ t, setFields t0 fields = Except.ok t → t.Text = t0.Text := by
  induction fields generalizing t0 with
  | nil => intro t h; simp only [setFields] at h; simp_all
  | cons kv rest ih =>
    intro t h
    obtain ⟨k, v⟩ := kv
    simp only [setFields] at h
    cases hsf : setField t0 k v with
    | error e => rw [hsf] at h; exact absurd h (by simp)
    | ok t1 =>
      rw [hsf] at h
      have h1 := ih t1 (fun kv hkv => hk kv (by simp [hkv])) t h
      have h2 := setField_text_of_not t0 k v (hk (k, v) (by simp)) t1 hsf
      rw [h1, h2]

/-! ## Well-formed store constructions (used by witnesses) -/

theorem wf_nil (c : Nat) (h : c < 16 ^ 24) : Store.wf ⟨[], c⟩ :=
  ⟨by intro r hr; simp at hr, by simp, h⟩

theorem wf_one (n c : Nat) (hnc : n < c) (hc : c < 16 ^ 24) (text : String)
    (completed : Bool) : Store.wf ⟨[⟨BsonId.oid n, text, completed⟩], c⟩ := by
  refine ⟨?_, by simp, hc⟩
  intro r hr
  simp only [List.mem_singleton] at hr
  subst hr
  simpa [BsonId.isGenBelow] using hnc

/-! ## Rendering facts -/

theorem renderTodosJson_some_head (l : List Todo) :
    (renderTodosJson (some l)).data.head? = some '[' := by
  show ("[" ++ String.intercalate "," (l.map renderTodoJson) ++ "]").data.head? = some '['
  rw [String.append_assoc, String.data_append]
  rfl

theorem renderTodosJson_some_ne_null (l : List Todo) :
    renderTodosJson (some l) ≠ "null" := by
  intro h
  have h2 := congrArg (fun s : String => s.data.head?) h
  simp only at h2
  rw [renderTodosJson_some_head l] at h2
  exact absurd h2 (by decide)

/-! ## The claims -/

/-- C1: the spec claims a GET on a structurally valid id matching no record
responds 404, not 200 with a record body. On the code, the driver's `FindOne`
never returns a nil `*SingleResult` (second conjunct: `collFindOnePtr` is
always `some`), so the handler's `record == nil` 404 branch is dead, the
ignored `Decode` error leaves the zero value, and the handler responds 200
with a zero-valued record — evaluated here at the valid, unmatched id of all
zeros against an empty collection. -/
theorem C1_get_missing_record_responds_200 :
    getByIdHandler "000000000000000000000000" none ⟨[], 0⟩ =
      (⟨200, Body.jsonTodo ⟨"", "", false⟩⟩, ⟨[], 0⟩,
        [StoreOp.findOne (BsonId.oid 0)]) ∧
    (∀ env s v, (collFindOnePtr env s v).isSome = true) := by
  constructor
  · decide
  · intro env s v
    rfl

/-- C2: a structurally invalid id on GET `/:id`, PUT `/:id` or DELETE `/:id`
yields status 400 (never 404 or 500), the store is unchanged, and no store
operation is issued (empty operation log). -/
theorem C2_invalid_id_yields_400 (idParam : String)
    (h : ObjectIDFromHex idParam = none) (env : Option String) (body : Json)
    (s : Store) :
    getByIdHandler idParam env s = (sendStatus 400, s, []) ∧
    putHandler idParam body env s = (sendStatus 400, s, []) ∧
    deleteHandler idParam env s = (sendStatus 400, s, []) ∧
    (sendStatus 400).status = 400 := by
  refine ⟨?_, ?_, ?_, rfl⟩ <;>
    simp only [getByIdHandler, putHandler, deleteHandler, h]

/-- Witness for C2 at the malformed id `"not-an-objectid"`. -/
theorem C2_invalid_id_yields_400_witness :
    getByIdHandler "not-an-objectid" none ⟨[], 0⟩ = (sendStatus 400, ⟨[], 0⟩, []) ∧
    putHandler "not-an-objectid" Json.null none ⟨[], 0⟩ = (sendStatus 400, ⟨[], 0⟩, []) ∧
    deleteHandler "not-an-objectid" none ⟨[], 0⟩ = (sendStatus 400, ⟨[], 0⟩, []) := by
  have h := C2_invalid_id_yields_400 "not-an-objectid" (by decide) none Json.null ⟨[], 0⟩
  exact ⟨h.1, h.2.1, h.2.2.1⟩

/-- C9: GET `/` without environmental failure answers 200 with the JSON array
of every record in store order — in particular, on an empty collection, the
empty JSON array `[]` (the handler's non-nil empty slice), never `null` and
never an error. -/
theorem C9_list_all (s : Store) :
    getAllHandler none none s =
      (⟨200, Body.jsonTodos (some (s.records.map todoOfRecord))⟩, s,
        [StoreOp.findAll]) ∧
    renderTodosJson (some (s.records.map todoOfRecord)) ≠ "null" ∧
    (s.records = [] →
      getAllHandler none none s =
        (⟨200, Body.jsonTodos (some [])⟩, s, [StoreOp.findAll]) ∧
      renderTodosJson (some []) = "[]") := by
  refine ⟨?_, renderTodosJson_some_ne_null _, ?_⟩
  · cases hr : s.records with
    | nil => simp [getAllHandler, collFind, cursorAll, hr]
    | cons r rs => simp [getAllHandler, collFind, cursorAll, hr]
  · intro hr
    constructor
    · cases hrec : s.records with
      | nil => simp [getAllHandler, collFind, cursorAll, hrec]
      | cons r rs => rw [hrec] at hr; exact absurd hr (by simp)
    · rfl

/-- Witness for C9 on the empty collection. -/
theorem C9_list_all_witness :
    getAllHandler none none ⟨[], 0⟩ =
      (⟨200, Body.jsonTodos (some [])⟩, ⟨[], 0⟩, [StoreOp.findAll]) ∧
    renderTodosJson (some []) = "[]" :=
  (C9_list_all ⟨[], 0⟩).2.2 rfl

/-- C10: if the body parses and the insert succeeds but the re-fetch of the
just-inserted record fails (environmental failure `msg`), the handler still
responds 201, with the zero-valued record (empty id, empty text, completed
false) as body: the `Decode` error is ignored. The record itself is
nevertheless inserted. -/
theorem C10_post_201_despite_refetch_failure (body : Json) (parsed : Todo)
    (s : Store) (hwf : s.wf) (hdec : decodeTodo body = Except.ok parsed)
    (msg : String) :
    postHandler body none (some msg) s =
      (⟨201, Body.jsonTodo ⟨"", "", false⟩⟩,
        ⟨s.records ++ [⟨BsonId.oid s.counter, parsed.Text, parsed.Completed⟩],
          s.counter + 1⟩,
        [StoreOp.insertOne { parsed with ID := "" },
         StoreOp.findOne (BsonId.oid s.counter)]) := by
  simp only [postHandler, hdec]
  rw [collInsertOne_fresh s hwf { parsed with ID := "" } rfl]
  rfl

/-- Witness for C10: inserting `{"text":"X"}` with a failing re-fetch. -/
theorem C10_post_201_despite_refetch_failure_witness :
    postHandler (Json.obj [("text", Json.str "X")]) none (some "connection reset") ⟨[], 0⟩ =
      (⟨201, Body.jsonTodo ⟨"", "", false⟩⟩,
        ⟨[⟨BsonId.oid 0, "X", false⟩], 1⟩,
        [StoreOp.insertOne ⟨"", "X", false⟩, StoreOp.findOne (BsonId.oid 0)]) :=
  C10_post_201_despite_refetch_failure (Json.obj [("text", Json.str "X")])
    ⟨"", "X", false⟩ ⟨[], 0⟩ (wf_nil 0 (by norm_num)) rfl "connection reset"

/-- C3: inserting a record via POST (text from the body, completed false) and
then fetching `/:id` with the returned id yields a record with the same text,
the same completed value and the same id. -/
theorem C3_round_trip (body : Json) (parsed : Todo) (s : Store) (hwf : s.wf)
    (hdec : decodeTodo body = Except.ok parsed) (hc : parsed.Completed = false) :
    ∃ created s1,
      postHandler body none none s =
        (⟨201, Body.jsonTodo created⟩, s1,
          [StoreOp.insertOne { parsed with ID := "" },
           StoreOp.findOne (BsonId.oid s.counter)]) ∧
      created = ⟨oidToHex s.counter, parsed.Text, false⟩ ∧
      getByIdHandler created.ID none s1 =
        (⟨200, Body.jsonTodo created⟩, s1,
          [StoreOp.findOne (BsonId.oid s.counter)]) := by
  have hfm : firstMatch (BsonId.oid s.counter)
      (s.records ++ [⟨BsonId.oid s.counter, parsed.Text, parsed.Completed⟩]) =
      some ⟨BsonId.oid s.counter, parsed.Text, parsed.Completed⟩ :=
    firstMatch_append_fresh _ _ _ (wf_id_ne_counter s hwf) rfl
  refine ⟨⟨oidToHex s.counter, parsed.Text, false⟩,
    ⟨s.records ++ [⟨BsonId.oid s.counter, parsed.Text, parsed.Completed⟩],
      s.counter + 1⟩, ?_, rfl, ?_⟩
  · simp only [postHandler, hdec]
    rw [collInsertOne_fresh s hwf { parsed with ID := "" } rfl]
    simp only [collFindOnePtr, hfm, ptrDecodeIgnoringErr, todoOfRecord]
    rw [hc]
  · simp only [getByIdHandler]
    rw [ObjectIDFromHex_oidToHex s.counter hwf.2.2]
    simp only [collFindOnePtr, hfm, ptrDecodeIgnoringErr, todoOfRecord]
    rw [hc]

/-- Witness for C3: POST `{"text":"X"}` into the empty store, then GET the
returned id. -/
theorem C3_round_trip_witness :
    ∃ created s1,
      postHandler (Json.obj [("text", Json.str "X")]) none none ⟨[], 0⟩ =
        (⟨201, Body.jsonTodo created⟩, s1,
          [StoreOp.insertOne ⟨"", "X", false⟩, StoreOp.findOne (BsonId.oid 0)]) ∧
      created = ⟨oidToHex 0, "X", false⟩ ∧
      getByIdHandler created.ID none s1 =
        (⟨200, Body.jsonTodo created⟩, s1, [StoreOp.findOne (BsonId.oid 0)]) :=
  C3_round_trip (Json.obj [("text", Json.str "X")]) ⟨"", "X", false⟩ ⟨[], 0⟩
    (wf_nil 0 (by norm_num)) rfl rfl

/-- C4: POST discards any client-supplied id (the inserted document carries
`ID = ""`, so the store generates the `_id`), and the returned id is non-empty
and distinct from every previously assigned id (every generated value below
the counter, hence every record in the store). -/
theorem C4_insert_id_fresh (body : Json) (parsed : Todo) (s : Store)
    (hwf : s.wf) (hdec : decodeTodo body = Except.ok parsed) :
    ∃ created s1,
      postHandler body none none s =
        (⟨201, Body.jsonTodo created⟩, s1,
          [StoreOp.insertOne { parsed with ID := "" },
           StoreOp.findOne (BsonId.oid s.counter)]) ∧
      ({ parsed with ID := "" }).ID = "" ∧
      created.ID = oidToHex s.counter ∧
      created.ID ≠ "" ∧
      (∀ n < s.counter, oidToHex n ≠ created.ID) ∧
      (∀ r ∈ s.records, (todoOfRecord r).ID ≠ created.ID) := by
  have hfm : firstMatch (BsonId.oid s.counter)
      (s.records ++ [⟨BsonId.oid s.counter, parsed.Text, parsed.Completed⟩]) =
      some ⟨BsonId.oid s.counter, parsed.Text, parsed.Completed⟩ :=
    firstMatch_append_fresh _ _ _ (wf_id_ne_counter s hwf) rfl
  refine ⟨⟨oidToHex s.counter, parsed.Text, parsed.Completed⟩,
    ⟨s.records ++ [⟨BsonId.oid s.counter, parsed.Text, parsed.Completed⟩],
      s.counter + 1⟩, ?_, rfl, rfl, oidToHex_ne_empty _, ?_, ?_⟩
  · simp only [postHandler, hdec]
    rw [collInsertOne_fresh s hwf { parsed with ID := "" } rfl]
    simp only [collFindOnePtr, hfm, ptrDecodeIgnoringErr, todoOfRecord]
  · intro n hn heq
    exact absurd (oidToHex_inj n s.counter (lt_trans hn hwf.2.2) hwf.2.2 heq)
      (Nat.ne_of_lt hn)
  · intro r hr heq
    have hgb := hwf.1 r hr
    cases hrid : r.id with
    | str s2 => rw [hrid] at hgb; simp [BsonId.isGenBelow] at hgb
    | oid n =>
      rw [hrid] at hgb
      simp only [BsonId.isGenBelow, decide_eq_true_eq] at hgb
      have hids : (todoOfRecord r).ID = oidToHex n := by
        simp [todoOfRecord, hrid]
      rw [hids] at heq
      exact absurd (oidToHex_inj n s.counter (lt_trans hgb hwf.2.2) hwf.2.2 heq)
        (Nat.ne_of_lt hgb)

/-- Witness for C4: POST `{"id":"evil","text":"X"}` into a store already
holding one record. -/
theorem C4_insert_id_fresh_witness :
    ∃ created s1,
      postHandler (Json.obj [("id", Json.str "evil"), ("text", Json.str "X")])
          none none ⟨[⟨BsonId.oid 0, "a", false⟩], 1⟩ =
        (⟨201, Body.jsonTodo created⟩, s1,
          [StoreOp.insertOne ⟨"", "X", false⟩, StoreOp.findOne (BsonId.oid 1)]) ∧
      ((⟨"evil", "X", false⟩ : Todo).ID = "evil" → ({ (⟨"evil", "X", false⟩ : Todo) with ID := "" }).ID = "") ∧
      created.ID = oidToHex 1 ∧
      created.ID ≠ "" ∧
      (∀ n < 1, oidToHex n ≠ created.ID) ∧
      (∀ r ∈ [(⟨BsonId.oid 0, "a", false⟩ : StoreRecord)], (todoOfRecord r).ID ≠ created.ID) := by
  have h := C4_insert_id_fresh
    (Json.obj [("id", Json.str "evil"), ("text", Json.str "X")])
    ⟨"evil", "X", false⟩ ⟨[⟨BsonId.oid 0, "a", false⟩], 1⟩
    (wf_one 0 1 Nat.zero_lt_one (by norm_num) "a" false) rfl
  obtain ⟨created, s1, h1, h2, h3, h4, h5, h6⟩ := h
  exact ⟨created, s1, h1, fun _ => h2, h3, h4, h5, h6⟩

/-- C5: a successful PUT on an existing record overwrites only that record's
text and completed fields: every record's `_id` is unchanged (in place), any
record with a different `_id` is untouched, and re-fetching by the original id
returns the same id with the new text/completed. -/
theorem C5_update_preserves_ids (s : Store) (idParam : String) (oid : Nat)
    (hid : ObjectIDFromHex idParam = some oid) (body : Json) (parsed : Todo)
    (hdec : decodeTodo body = Except.ok parsed)
    (hmem : BsonId.oid oid ∈ s.records.map (fun r => r.id)) :
    ∃ rs1,
      putHandler idParam body none s =
        (⟨200, Body.jsonTodo { parsed with ID := idParam }⟩, ⟨rs1, s.counter⟩,
          [StoreOp.findOneAndUpdate oid]) ∧
      rs1.map (fun r => r.id) = s.records.map (fun r => r.id) ∧
      firstMatch (BsonId.oid oid) rs1 =
        some ⟨BsonId.oid oid, parsed.Text, parsed.Completed⟩ ∧
      (∀ r ∈ s.records, r.id ≠ BsonId.oid oid → r ∈ rs1) ∧
      getByIdHandler (oidToHex oid) none ⟨rs1, s.counter⟩ =
        (⟨200, Body.jsonTodo ⟨oidToHex oid, parsed.Text, parsed.Completed⟩⟩,
          ⟨rs1, s.counter⟩, [StoreOp.findOne (BsonId.oid oid)]) := by
  obtain ⟨rs1, hupd⟩ :=
    updateFirst_isSome_of_mem (BsonId.oid oid) parsed.Text parsed.Completed
      s.records hmem
  refine ⟨rs1, ?_, updateFirst_map_id _ _ _ _ _ hupd,
    updateFirst_firstMatch _ _ _ _ _ hupd, updateFirst_frame _ _ _ _ _ hupd, ?_⟩
  · simp only [putHandler, hid, hdec, collFindOneAndUpdate, hupd]
  · simp only [getByIdHandler]
    rw [ObjectIDFromHex_oidToHex oid (ObjectIDFromHex_lt idParam oid hid)]
    simp only [collFindOnePtr, updateFirst_firstMatch _ _ _ _ _ hupd,
      ptrDecodeIgnoringErr, todoOfRecord]

/-- Witness for C5: PUT `{"text":"new","completed":true}` on the one existing
record. -/
theorem C5_update_preserves_ids_witness :
    ∃ rs1,
      putHandler "000000000000000000000000"
          (Json.obj [("text", Json.str "new"), ("completed", Json.bool true)])
          none ⟨[⟨BsonId.oid 0, "old", false⟩], 1⟩ =
        (⟨200, Body.jsonTodo ⟨"000000000000000000000000", "new", true⟩⟩,
          ⟨rs1, 1⟩, [StoreOp.findOneAndUpdate 0]) ∧
      rs1.map (fun r => r.id) =
        [(⟨BsonId.oid 0, "old", false⟩ : StoreRecord)].map (fun r => r.id) ∧
      firstMatch (BsonId.oid 0) rs1 = some ⟨BsonId.oid 0, "new", true⟩ ∧
      (∀ r ∈ [(⟨BsonId.oid 0, "old", false⟩ : StoreRecord)],
        r.id ≠ BsonId.oid 0 → r ∈ rs1) ∧
      getByIdHandler (oidToHex 0) none ⟨rs1, 1⟩ =
        (⟨200, Body.jsonTodo ⟨oidToHex 0, "new", true⟩⟩, ⟨rs1, 1⟩,
          [StoreOp.findOne (BsonId.oid 0)]) :=
  C5_update_preserves_ids ⟨[⟨BsonId.oid 0, "old", false⟩], 1⟩
    "000000000000000000000000" 0 (by decide)
    (Json.obj [("text", Json.str "new"), ("completed", Json.bool true)])
    ⟨"", "new", true⟩ rfl (by decide)

/-- C6: DELETE with a structurally valid id answers 404 (leaving the store
untouched) when no record matches — never a store error —, answers 204 with
no body after removing exactly one record when a record matches, and answers
500 on an environmental store failure. -/
theorem C6_delete_semantics (s : Store) (idParam : String) (oid : Nat)
    (hid : ObjectIDFromHex idParam = some oid) :
    ((∀ r ∈ s.records, r.id ≠ BsonId.oid oid) →
      deleteHandler idParam none s =
        (sendStatus 404, s, [StoreOp.deleteOne oid])) ∧
    (BsonId.oid oid ∈ s.records.map (fun r => r.id) →
      deleteHandler idParam none s =
        (⟨204, Body.empty⟩,
          ⟨(deleteFirst (BsonId.oid oid) s.records).1, s.counter⟩,
          [StoreOp.deleteOne oid]) ∧
      (deleteFirst (BsonId.oid oid) s.records).1.length + 1 = s.records.length) ∧
    (∀ msg, deleteHandler idParam (some msg) s =
      (sendStatus 500, s, [StoreOp.deleteOne oid])) := by
  refine ⟨?_, ?_, ?_⟩
  · intro h
    have hdel := deleteFirst_of_not_mem (BsonId.oid oid) s.records h
    simp only [deleteHandler, hid, collDeleteOne, hdel]
    rw [if_pos Nat.zero_lt_one]
  · intro h
    obtain ⟨hcount, hlen⟩ := deleteFirst_of_mem (BsonId.oid oid) s.records h
    refine ⟨?_, hlen⟩
    simp only [deleteHandler, hid, collDeleteOne, hcount]
    rw [if_neg (by omega)]
    rfl
  · intro msg
    simp only [deleteHandler, hid, collDeleteOne]

/-- Witness for C6: deleting the single existing record (204) and deleting
from the empty store (404). -/
theorem C6_delete_semantics_witness :
    deleteHandler "000000000000000000000000" none ⟨[⟨BsonId.oid 0, "a", false⟩], 1⟩ =
      (⟨204, Body.empty⟩, ⟨[], 1⟩, [StoreOp.deleteOne 0]) ∧
    deleteHandler "000000000000000000000000" none ⟨[], 1⟩ =
      (sendStatus 404, ⟨[], 1⟩, [StoreOp.deleteOne 0]) ∧
    deleteHandler "000000000000000000000000" (some "boom") ⟨[], 1⟩ =
      (sendStatus 500, ⟨[], 1⟩, [StoreOp.deleteOne 0]) := by
  have h1 := C6_delete_semantics ⟨[⟨BsonId.oid 0, "a", false⟩], 1⟩
    "000000000000000000000000" 0 (by decide)
  have h2 := C6_delete_semantics ⟨[], 1⟩ "000000000000000000000000" 0 (by decide)
  exact ⟨(h1.2.1 (by decide)).1, h2.1 (by intro r hr; simp at hr), h2.2.2 "boom"⟩

/-- C7: body parsing for POST/PUT performs no required-field validation: the
empty object is accepted (all fields zero), an object without a `completed`
key decodes with `completed = false`, an object without a `text` key decodes
with `text = ""`, and a body that fails to decode yields 400 (with the decode
error as body) on both POST and PUT, the store untouched. -/
theorem C7_body_parsing (fields : List (String × Json)) (body : Json)
    (msg : String) (s : Store) (env1 env2 : Option String) (idParam : String)
    (oid : Nat) :
    decodeTodo (Json.obj []) = Except.ok ⟨"", "", false⟩ ∧
    ((∀ kv ∈ fields, keyIs kv.1 "completed" = false) →
      ∀ t, decodeTodo (Json.obj fields) = Except.ok t → t.Completed = false) ∧
    ((∀ kv ∈ fields, keyIs kv.1 "text" = false) →
      ∀ t, decodeTodo (Json.obj fields) = Except.ok t → t.Text = "") ∧
    (decodeTodo body = Except.error msg →
      postHandler body env1 env2 s = (⟨400, Body.text msg⟩, s, []) ∧
      (ObjectIDFromHex idParam = some oid →
        putHandler idParam body env1 s = (⟨400, Body.text msg⟩, s, []))) := by
  refine ⟨rfl, ?_, ?_, ?_⟩
  · intro hk t ht
    exact setFields_completed fields ⟨"", "", false⟩ hk t ht
  · intro hk t ht
    exact setFields_text fields ⟨"", "", false⟩ hk t ht
  · intro hdec
    constructor
    · simp only [postHandler, hdec]
    · intro hid
      simp only [putHandler, hid, hdec]

/-- Witness for C7: `{"text":"hi"}` (no `completed` key) decodes with
`completed = false`; the non-object body `"x"` yields 400 on POST and PUT. -/
theorem C7_body_parsing_witness :
    (∀ t, decodeTodo (Json.obj [("text", Json.str "hi")]) = Except.ok t →
      t.Completed = false) ∧
    postHandler (Json.str "x") none none ⟨[], 0⟩ =
      (⟨400, Body.text "json: cannot unmarshal value into Go value of type main.Todo"⟩,
        ⟨[], 0⟩, []) ∧
    putHandler "000000000000000000000000" (Json.str "x") none ⟨[], 0⟩ =
      (⟨400, Body.text "json: cannot unmarshal value into Go value of type main.Todo"⟩,
        ⟨[], 0⟩, []) := by
  have h := C7_body_parsing [("text", Json.str "hi")] (Json.str "x")
    "json: cannot unmarshal value into Go value of type main.Todo"
    ⟨[], 0⟩ none none "000000000000000000000000" 0
  have h4 := h.2.2.2 rfl
  exact ⟨h.2.1 (by decide), h4.1, h4.2 (by decide)⟩

/-- C8: PUT with a structurally valid id and a decodable body answers 200 with
the JSON record whose id is the path parameter when a record matches, 404 when
no record matches, and 500 on an environmental store failure. -/
theorem C8_put_status_mapping (s : Store) (idParam : String) (oid : Nat)
    (hid : ObjectIDFromHex idParam = some oid) (body : Json) (parsed : Todo)
    (hdec : decodeTodo body = Except.ok parsed) :
    (BsonId.oid oid ∈ s.records.map (fun r => r.id) →
      ∃ rs1, putHandler idParam body none s =
        (⟨200, Body.jsonTodo { parsed with ID := idParam }⟩, ⟨rs1, s.counter⟩,
          [StoreOp.findOneAndUpdate oid]) ∧
        ({ parsed with ID := idParam }).ID = idParam) ∧
    ((∀ r ∈ s.records, r.id ≠ BsonId.oid oid) →
      putHandler idParam body none s =
        (sendStatus 404, s, [StoreOp.findOneAndUpdate oid])) ∧
    (∀ msg, putHandler idParam body (some msg) s =
      (sendStatus 500, s, [StoreOp.findOneAndUpdate oid])) := by
  refine ⟨?_, ?_, ?_⟩
  · intro hmem
    obtain ⟨rs1, hupd⟩ :=
      updateFirst_isSome_of_mem (BsonId.oid oid) parsed.Text parsed.Completed
        s.records hmem
    refine ⟨rs1, ?_, rfl⟩
    simp only [putHandler, hid, hdec, collFindOneAndUpdate, hupd]
  · intro h
    have hupd := updateFirst_none_of_not_mem (BsonId.oid oid) parsed.Text
      parsed.Completed s.records h
    simp only [putHandler, hid, hdec, collFindOneAndUpdate, hupd]
  · intro msg
    simp only [putHandler, hid, hdec, collFindOneAndUpdate]

/-- Witness for C8: the 200, 404 and 500 branches at concrete inputs. -/
theorem C8_put_status_mapping_witness :
    (∃ rs1, putHandler "000000000000000000000000"
        (Json.obj [("text", Json.str "t"), ("completed", Json.bool true)])
        none ⟨[⟨BsonId.oid 0, "old", false⟩], 1⟩ =
      (⟨200, Body.jsonTodo ⟨"000000000000000000000000", "t", true⟩⟩, ⟨rs1, 1⟩,
        [StoreOp.findOneAndUpdate 0]) ∧
      (⟨"000000000000000000000000", "t", true⟩ : Todo).ID = "000000000000000000000000") ∧
    putHandler "000000000000000000000000"
        (Json.obj [("text", Json.str "t"), ("completed", Json.bool true)])
        none ⟨[], 1⟩ =
      (sendStatus 404, ⟨[], 1⟩, [StoreOp.findOneAndUpdate 0]) ∧
    putHandler "000000000000000000000000"
        (Json.obj [("text", Json.str "t"), ("completed", Json.bool true)])
        (some "boom") ⟨[], 1⟩ =
      (sendStatus 500, ⟨[], 1⟩, [StoreOp.findOneAndUpdate 0]) := by
  have h1 := C8_put_status_mapping ⟨[⟨BsonId.oid 0, "old", false⟩], 1⟩
    "000000000000000000000000" 0 (by decide)
    (Json.obj [("text", Json.str "t"), ("completed", Json.bool true)])
    ⟨"", "t", true⟩ rfl
  have h2 := C8_put_status_mapping ⟨[], 1⟩ "000000000000000000000000" 0
    (by decide)
    (Json.obj [("text", Json.str "t"), ("completed", Json.bool true)])
    ⟨"", "t", true⟩ rfl
  exact ⟨h1.1 (by decide), h2.2.1 (by intro r hr; simp at hr), h2.2.2 "boom"⟩

end TodosApi
